import Mathlib

/-!
Shallow embedding of the master system catalog table
(src/kudu/master/sys_catalog.cc) and proofs about its specified
behaviour.  Pure data manipulation is translated directly; external
collaborators (filesystem metadata store, consensus metadata store,
tablet engine, RPC resolution) are modelled as explicit environment
records whose results are inputs to the embedded functions, exactly as
the source consumes their statuses.
-/

namespace SysCatalog

/-- Status codes produced or forwarded by the catalog code
(kudu::Status).  The generic constructor stands for any other code an
external collaborator may return. -/
inductive StatusCode where
  | ok
  | notFound
  | corruption
  | invalidArgument
  | runtimeError
  | timedOut
  | illegalState
  | aborted
  deriving DecidableEq, Repr

/-- Model of kudu::Status: a code plus a message. -/
structure Status where
  code : StatusCode
  msg : String
  deriving DecidableEq, Repr

def Status.OK : Status := ⟨.ok, ""⟩

def Status.corruption (m : String) : Status := ⟨.corruption, m⟩

def Status.invalidArgument (m : String) : Status := ⟨.invalidArgument, m⟩

def Status.runtimeError (m : String) : Status := ⟨.runtimeError, m⟩

def Status.notFound (m : String) : Status := ⟨.notFound, m⟩

def Status.isOk (s : Status) : Bool := s.code = StatusCode.ok

/-- Model of RETURN_NOT_OK_PREPEND message prepending: a non-OK status
gets the context string prepended to its message. -/
def Status.prepend (ctx : String) (s : Status) : Status :=
  if s.code = StatusCode.ok then s else ⟨s.code, ctx ++ ": " ++ s.msg⟩

/-- Fixed message of the injected write failure
(SysCatalogTable::kInjectedFailureStatusMsg). -/
def kInjectedFailureStatusMsg : String := "INJECTED FAILURE"

/-- Well-known catalog tablet id (SysCatalogTable::kSysCatalogTabletId). -/
def kSysCatalogTabletId : String := "00000000000000000000000000000000"

/-- Column data types used by the catalog schema. -/
inductive DataType where
  | int8
  | string
  deriving DecidableEq, Repr

/-- One column of a schema, as produced by SchemaBuilder. -/
structure ColumnSchema where
  name : String
  type : DataType
  isKey : Bool
  deriving DecidableEq, Repr

/-- Schema model: the ordered column list. -/
structure Schema where
  columns : List ColumnSchema
  deriving DecidableEq, Repr

/-- SysCatalogTable::BuildTableSchema: two key columns
(entry_type INT8, entry_id STRING) and one value column
(metadata STRING). -/
def BuildTableSchema : Schema :=
  { columns := [ ⟨"entry_type", .int8, true⟩,
                 ⟨"entry_id", .string, true⟩,
                 ⟨"metadata", .string, false⟩ ] }

/-- Row entry types (TABLES_ENTRY / TABLETS_ENTRY from master.pb). -/
inductive EntryType where
  | tablesEntry
  | tabletsEntry
  deriving DecidableEq, Repr

/-- Row operation types used by the write path (RowOperationsPB). -/
inductive RowOpType where
  | insert
  | update
  | delete
  deriving DecidableEq, Repr

/-- One encoded row operation: the operation type plus the column
values set on the partial row.  Delete rows set only the key columns,
so the metadata column is optional. -/
structure RowOperation where
  opType : RowOpType
  entryType : EntryType
  entryId : String
  metadata : Option String
  deriving DecidableEq, Repr

/-- Model of tserver::WriteRequestPB as built by the write path. -/
structure WriteRequestPB where
  tabletId : String
  schema : Schema
  rowOperations : List RowOperation
  deriving DecidableEq, Repr

/-- RowOperationsPBEncoder::Add appends one encoded operation to the
request. -/
def addRowOp (req : WriteRequestPB) (op : RowOperation) : WriteRequestPB :=
  { req with rowOperations := req.rowOperations ++ [op] }

/-- Model of master::TableInfo as consumed by the write path: its id
and the serialized dirty metadata protobuf. -/
structure TableInfo where
  id : String
  dirtyMetadataPB : String
  deriving DecidableEq, Repr

/-- Model of master::TabletInfo as consumed by the write path. -/
structure TabletInfo where
  tabletId : String
  dirtyMetadataPB : String
  deriving DecidableEq, Repr

/-- SysCatalogTable::ReqAddTable: set entry_type = TABLES_ENTRY, the
table id and serialized metadata, and append an INSERT operation. -/
def ReqAddTable (req : WriteRequestPB) (table : TableInfo) : WriteRequestPB :=
  addRowOp req ⟨.insert, .tablesEntry, table.id, some table.dirtyMetadataPB⟩

/-- SysCatalogTable::ReqUpdateTable: same row as ReqAddTable but an
UPDATE operation. -/
def ReqUpdateTable (req : WriteRequestPB) (table : TableInfo) : WriteRequestPB :=
  addRowOp req ⟨.update, .tablesEntry, table.id, some table.dirtyMetadataPB⟩

/-- SysCatalogTable::ReqDeleteTable: key columns only, DELETE
operation. -/
def ReqDeleteTable (req : WriteRequestPB) (table : TableInfo) : WriteRequestPB :=
  addRowOp req ⟨.delete, .tablesEntry, table.id, none⟩

/-- SysCatalogTable::ReqAddTablets: loop over the tablet vector and
append one INSERT operation per tablet. -/
def ReqAddTablets (req : WriteRequestPB) (tablets : List TabletInfo) : WriteRequestPB :=
  tablets.foldl
    (fun r t => addRowOp r ⟨.insert, .tabletsEntry, t.tabletId, some t.dirtyMetadataPB⟩) req

/-- SysCatalogTable::ReqUpdateTablets: one UPDATE operation per tablet,
in vector order. -/
def ReqUpdateTablets (req : WriteRequestPB) (tablets : List TabletInfo) : WriteRequestPB :=
  tablets.foldl
    (fun r t => addRowOp r ⟨.update, .tabletsEntry, t.tabletId, some t.dirtyMetadataPB⟩) req

/-- SysCatalogTable::ReqDeleteTablets: one DELETE operation (key
columns only) per tablet, in vector order. -/
def ReqDeleteTablets (req : WriteRequestPB) (tablets : List TabletInfo) : WriteRequestPB :=
  tablets.foldl
    (fun r t => addRowOp r ⟨.delete, .tabletsEntry, t.tabletId, none⟩) req

/-- Model of SysCatalogTable::Actions: up to one table add, update and
delete plus vectors of tablet adds, updates and deletes. -/
structure Actions where
  tableToAdd : Option TableInfo
  tableToUpdate : Option TableInfo
  tableToDelete : Option TableInfo
  tabletsToAdd : List TabletInfo
  tabletsToUpdate : List TabletInfo
  tabletsToDelete : List TabletInfo
  deriving DecidableEq, Repr

/-- Actions::Actions(): all singletons null, all vectors empty. -/
def Actions.empty : Actions := ⟨none, none, none, [], [], []⟩

/-- Request-building portion of SysCatalogTable::Write: address the
catalog tablet, attach the schema, then encode the actions in source
order (table add, table update, table delete, tablet adds, tablet
updates, tablet deletes). -/
def BuildWriteRequest (schema : Schema) (actions : Actions) : WriteRequestPB :=
  let req : WriteRequestPB := { tabletId := kSysCatalogTabletId, schema := schema,
                                rowOperations := [] }
  let req := match actions.tableToAdd with
             | some t => ReqAddTable req t
             | none => req
  let req := match actions.tableToUpdate with
             | some t => ReqUpdateTable req t
             | none => req
  let req := match actions.tableToDelete with
             | some t => ReqDeleteTable req t
             | none => req
  let req := ReqAddTablets req actions.tabletsToAdd
  let req := ReqUpdateTablets req actions.tabletsToUpdate
  ReqDeleteTablets req actions.tabletsToDelete

/-- Row operation encoded for a table by the given operation type. -/
def tableOp (o : RowOpType) (t : TableInfo) : RowOperation :=
  ⟨o, .tablesEntry, t.id, if o = RowOpType.delete then none else some t.dirtyMetadataPB⟩

/-- Row operation encoded for a tablet by the given operation type. -/
def tabletOp (o : RowOpType) (t : TabletInfo) : RowOperation :=
  ⟨o, .tabletsEntry, t.tabletId, if o = RowOpType.delete then none else some t.dirtyMetadataPB⟩

theorem reqAddTablets_rowOperations (req : WriteRequestPB) (ts : List TabletInfo) :
    (ReqAddTablets req ts).rowOperations
      = req.rowOperations ++ ts.map (tabletOp .insert) := by
  induction ts generalizing req with
  | nil => simp [ReqAddTablets]
  | cons t ts ih =>
      simp [ReqAddTablets] at ih ⊢
      rw [ih]
      simp [addRowOp, tabletOp]

theorem reqUpdateTablets_rowOperations (req : WriteRequestPB) (ts : List TabletInfo) :
    (ReqUpdateTablets req ts).rowOperations
      = req.rowOperations ++ ts.map (tabletOp .update) := by
  induction ts generalizing req with
  | nil => simp [ReqUpdateTablets]
  | cons t ts ih =>
      simp [ReqUpdateTablets] at ih ⊢
      rw [ih]
      simp [addRowOp, tabletOp]

theorem reqDeleteTablets_rowOperations (req : WriteRequestPB) (ts : List TabletInfo) :
    (ReqDeleteTablets req ts).rowOperations
      = req.rowOperations ++ ts.map (tabletOp .delete) := by
  induction ts generalizing req with
  | nil => simp [ReqDeleteTablets]
  | cons t ts ih =>
      simp [ReqDeleteTablets] at ih ⊢
      rw [ih]
      simp [addRowOp, tabletOp]

/-- C1: the write request built by Write carries the encoded row
operations in exactly this order: table add (if present), table update
(if present), table delete (if present), then all tablet adds, all
tablet updates, all tablet deletes, the tablet groups in input vector
order. -/
theorem write_request_row_operation_order (schema : Schema) (a : Actions) :
    (BuildWriteRequest schema a).rowOperations
      = (a.tableToAdd.toList.map (tableOp .insert))
        ++ (a.tableToUpdate.toList.map (tableOp .update))
        ++ (a.tableToDelete.toList.map (tableOp .delete))
        ++ a.tabletsToAdd.map (tabletOp .insert)
        ++ a.tabletsToUpdate.map (tabletOp .update)
        ++ a.tabletsToDelete.map (tabletOp .delete) := by
  unfold BuildWriteRequest
  rw [reqDeleteTablets_rowOperations, reqUpdateTablets_rowOperations,
      reqAddTablets_rowOperations]
  cases a.tableToAdd <;> cases a.tableToUpdate <;> cases a.tableToDelete <;>
    simp [ReqAddTable, ReqUpdateTable, ReqDeleteTable, addRowOp, tableOp]

/-- Wire status attached to a write response (AppStatusPB).  Converted
to a Status by StatusFromPB. -/
structure AppStatusPB where
  code : StatusCode
  message : String
  deriving DecidableEq, Repr

/-- Model of StatusFromPB: rebuild a Status from the wire record. -/
def StatusFromPB (pb : AppStatusPB) : Status := ⟨pb.code, pb.message⟩

/-- One per-row error of a write response
(WriteResponsePB::PerRowErrorPB). -/
structure PerRowErrorPB where
  rowIndex : Nat
  error : AppStatusPB
  deriving DecidableEq, Repr

/-- Model of tserver::WriteResponsePB as consulted by SyncWrite. -/
structure WriteResponsePB where
  error : Option AppStatusPB
  perRowErrors : List PerRowErrorPB
  deriving DecidableEq, Repr

/-- Catalog-side state touched by the synchronous write path: the
transactions submitted to consensus so far.  A row operation can be
applied or logged only as part of a submitted transaction. -/
structure CatalogState where
  submitted : List WriteRequestPB
  deriving DecidableEq, Repr

/-- Environment of one SyncWrite call: the fault-injection knob with
the random draw it consumes, the result of TabletPeer::SubmitWrite,
and the response the completion callback populates before the latch is
released. -/
structure WriteEnv where
  faultProb : ℚ
  faultDraw : ℚ
  submitResult : Status
  response : WriteResponsePB
  deriving DecidableEq, Repr

/-- SysCatalogTable::SyncWrite.  Modelled from the spec for the part
missing from src (util/fault_injection): MAYBE_RETURN_FAILURE fires
with the configured probability, so it fires exactly when the uniform
draw in the unit interval falls below the probability.  The rest
follows the source: submit the write, wait on the latch, then report
the RPC-level error, else a corruption status when per-row errors are
present, else OK. -/
def SyncWrite (env : WriteEnv) (st : CatalogState) (req : WriteRequestPB) :
    Status × CatalogState :=
  if env.faultDraw < env.faultProb then
    (Status.runtimeError kInjectedFailureStatusMsg, st)
  else if env.submitResult.code ≠ StatusCode.ok then
    (env.submitResult, st)
  else
    let st2 : CatalogState := { submitted := st.submitted ++ [req] }
    match env.response.error with
    | some e => (StatusFromPB e, st2)
    | none =>
        if 0 < env.response.perRowErrors.length then
          (Status.corruption "One or more rows failed to write", st2)
        else
          (Status.OK, st2)

/-- SysCatalogTable::Write: build the request from the actions and hand
it to SyncWrite. -/
def Write (schema : Schema) (env : WriteEnv) (st : CatalogState) (actions : Actions) :
    Status × CatalogState :=
  SyncWrite env st (BuildWriteRequest schema actions)

/-- C4: response handling of SyncWrite once a response has been
received (no injected fault, submission succeeded).  An RPC-level
error is converted and returned regardless of per-row errors; else any
per-row error yields the fixed corruption status; else OK. -/
theorem syncWrite_response_handling (env : WriteEnv) (st : CatalogState)
    (req : WriteRequestPB)
    (hNoFault : ¬ env.faultDraw < env.faultProb)
    (hSubmit : env.submitResult.code = StatusCode.ok) :
    (∀ e, env.response.error = some e → (SyncWrite env st req).1 = StatusFromPB e)
    ∧ (env.response.error = none → env.response.perRowErrors ≠ [] →
        (SyncWrite env st req).1 = Status.corruption "One or more rows failed to write")
    ∧ (env.response.error = none → env.response.perRowErrors = [] →
        (SyncWrite env st req).1 = Status.OK) := by
  refine ⟨?_, ?_, ?_⟩
  · intro e he
    simp [SyncWrite, hNoFault, hSubmit, he]
  · intro hn hpe
    have hlen : 0 < env.response.perRowErrors.length :=
      List.length_pos.mpr hpe
    simp [SyncWrite, hNoFault, hSubmit, hn, hlen]
  · intro hn hpe
    simp [SyncWrite, hNoFault, hSubmit, hn, hpe]

/-- Witness for C4: the three response shapes at concrete inputs. -/
theorem syncWrite_response_handling_witness :
    (SyncWrite ⟨0, 0, Status.OK, ⟨some ⟨.illegalState, "not leader"⟩, []⟩⟩
        ⟨[]⟩ (BuildWriteRequest BuildTableSchema Actions.empty)).1
      = StatusFromPB ⟨.illegalState, "not leader"⟩
    ∧ (SyncWrite ⟨0, 0, Status.OK, ⟨none, [⟨0, ⟨.corruption, "dup"⟩⟩]⟩⟩
        ⟨[]⟩ (BuildWriteRequest BuildTableSchema Actions.empty)).1
      = Status.corruption "One or more rows failed to write"
    ∧ (SyncWrite ⟨0, 0, Status.OK, ⟨none, []⟩⟩
        ⟨[]⟩ (BuildWriteRequest BuildTableSchema Actions.empty)).1
      = Status.OK := by
  refine ⟨?_, ?_, ?_⟩
  · exact (syncWrite_response_handling _ _ _ (by decide) (by decide)).1 _ rfl
  · exact (syncWrite_response_handling _ _ _ (by decide) (by decide)).2.1 rfl (by decide)
  · exact (syncWrite_response_handling _ _ _ (by decide) (by decide)).2.2 rfl rfl

/-- C5: with fault-injection probability 1.0 and any uniform draw in
the unit interval, SyncWrite returns a runtime error with the fixed
INJECTED FAILURE message and leaves the catalog state unchanged, so no
transaction is submitted and no row operation is applied or logged. -/
theorem syncWrite_injected_failure (env : WriteEnv) (st : CatalogState)
    (req : WriteRequestPB)
    (hProb : env.faultProb = 1)
    (hDraw0 : 0 ≤ env.faultDraw) (hDraw1 : env.faultDraw < 1) :
    (SyncWrite env st req).1 = Status.runtimeError kInjectedFailureStatusMsg
    ∧ (SyncWrite env st req).2 = st := by
  have h : env.faultDraw < env.faultProb := by rw [hProb]; exact hDraw1
  constructor <;> simp [SyncWrite, h]

/-- Witness for C5 at a concrete environment and draw. -/
theorem syncWrite_injected_failure_witness :
    (SyncWrite ⟨1, 1/2, Status.OK, ⟨none, []⟩⟩ ⟨[]⟩
        (BuildWriteRequest BuildTableSchema Actions.empty)).1
      = Status.runtimeError kInjectedFailureStatusMsg
    ∧ (SyncWrite ⟨1, 1/2, Status.OK, ⟨none, []⟩⟩ ⟨[]⟩
        (BuildWriteRequest BuildTableSchema Actions.empty)).2
      = (⟨[]⟩ : CatalogState) :=
  syncWrite_injected_failure _ _ _ rfl (by norm_num) (by norm_num)

/-- C8: a Write whose actions are all empty builds a request with an
empty row-operations set, and the request is still submitted through
the synchronous write path; absent an injected fault, a submission
failure and response errors, Write returns OK. -/
theorem write_empty_actions_noop_still_submitted (schema : Schema)
    (env : WriteEnv) (st : CatalogState)
    (hNoFault : ¬ env.faultDraw < env.faultProb)
    (hSubmit : env.submitResult.code = StatusCode.ok)
    (hErr : env.response.error = none)
    (hRows : env.response.perRowErrors = []) :
    (BuildWriteRequest schema Actions.empty).rowOperations = []
    ∧ (Write schema env st Actions.empty).2.submitted
        = st.submitted ++ [BuildWriteRequest schema Actions.empty]
    ∧ (Write schema env st Actions.empty).1 = Status.OK := by
  refine ⟨?_, ?_, ?_⟩
  · rw [write_request_row_operation_order]
    simp [Actions.empty]
  · simp [Write, SyncWrite, hNoFault, hSubmit, hErr, hRows]
  · simp [Write, SyncWrite, hNoFault, hSubmit, hErr, hRows]

/-- Witness for C8: empty actions at a clean concrete environment. -/
theorem write_empty_actions_noop_still_submitted_witness :
    (BuildWriteRequest BuildTableSchema Actions.empty).rowOperations = []
    ∧ (Write BuildTableSchema ⟨0, 0, Status.OK, ⟨none, []⟩⟩ ⟨[]⟩ Actions.empty).2.submitted
        = ([] : List WriteRequestPB) ++ [BuildWriteRequest BuildTableSchema Actions.empty]
    ∧ (Write BuildTableSchema ⟨0, 0, Status.OK, ⟨none, []⟩⟩ ⟨[]⟩ Actions.empty).1
        = Status.OK :=
  write_empty_actions_noop_still_submitted BuildTableSchema _ _
    (by decide) (by decide) rfl rfl

/-- Model of MonoDelta as a millisecond budget. -/
structure MonoDelta where
  millis : Nat
  deriving DecidableEq, Repr

/-- MonoDelta::FromSeconds. -/
def MonoDelta.fromSeconds (s : Nat) : MonoDelta := ⟨s * 1000⟩

/-- SysCatalogTable::WaitUntilRunning.  The tablet peer is modelled as
the function giving the status of the n-th
WaitUntilConsensusRunning(timeout) poll; the loop always passes a
one-second budget.  The unbounded source loop is embedded with fuel:
a none result means the loop is still polling after that many
iterations. -/
def WaitUntilRunning (poll : MonoDelta → Nat → Status) : Nat → Nat → Option Status
  | 0, _ => none
  | fuel + 1, n =>
      let status := poll (MonoDelta.fromSeconds 1) n
      if status.code = StatusCode.ok then some Status.OK
      else if status.code = StatusCode.timedOut then
        WaitUntilRunning poll fuel (n + 1)
      else some status

/-- C6: WaitUntilRunning polls the consensus-running condition with a
one-second budget per poll; an OK poll ends the wait with OK, a
timed-out poll is retried, any other status is returned unchanged, and
a peer that times out forever is polled forever. -/
theorem waitUntilRunning_poll_contract (poll : MonoDelta → Nat → Status)
    (fuel n : Nat) :
    ((poll (MonoDelta.fromSeconds 1) n).code = StatusCode.ok →
      WaitUntilRunning poll (fuel + 1) n = some Status.OK)
    ∧ ((poll (MonoDelta.fromSeconds 1) n).code = StatusCode.timedOut →
      WaitUntilRunning poll (fuel + 1) n = WaitUntilRunning poll fuel (n + 1))
    ∧ ((poll (MonoDelta.fromSeconds 1) n).code ≠ StatusCode.ok →
       (poll (MonoDelta.fromSeconds 1) n).code ≠ StatusCode.timedOut →
      WaitUntilRunning poll (fuel + 1) n = some (poll (MonoDelta.fromSeconds 1) n))
    ∧ ((∀ m, (poll (MonoDelta.fromSeconds 1) m).code = StatusCode.timedOut) →
      ∀ f k, WaitUntilRunning poll f k = none) := by
  refine ⟨?_, ?_, ?_, ?_⟩
  · intro h
    simp [WaitUntilRunning, h]
  · intro h
    simp [WaitUntilRunning, h]
  · intro h1 h2
    simp [WaitUntilRunning, h1, h2]
  · intro hall f
    induction f with
    | zero => intro k; simp [WaitUntilRunning]
    | succ f ih =>
        intro k
        simp [WaitUntilRunning, hall k, ih (k + 1)]

/-- Witness for C6: a peer that times out once and then runs. -/
theorem waitUntilRunning_poll_contract_witness :
    WaitUntilRunning (fun _ n => if n = 0 then ⟨.timedOut, "t"⟩ else Status.OK) 2 0
      = WaitUntilRunning (fun _ n => if n = 0 then ⟨.timedOut, "t"⟩ else Status.OK) 1 1
    ∧ WaitUntilRunning (fun _ n => if n = 0 then ⟨.timedOut, "t"⟩ else Status.OK) 1 1
      = some Status.OK
    ∧ WaitUntilRunning (fun _ _ => ⟨.illegalState, "shutting down"⟩) 1 0
      = some ⟨.illegalState, "shutting down"⟩
    ∧ WaitUntilRunning (fun _ _ => ⟨.timedOut, "t"⟩) 5 0 = none := by
  refine ⟨?_, ?_, ?_, ?_⟩
  · exact (waitUntilRunning_poll_contract _ 1 0).2.1 (by decide)
  · exact (waitUntilRunning_poll_contract _ 0 1).1 (by decide)
  · exact (waitUntilRunning_poll_contract _ 0 0).2.2.1 (by decide) (by decide)
  · exact (waitUntilRunning_poll_contract (fun _ _ => ⟨.timedOut, "t"⟩) 0 0).2.2.2
      (fun _ => rfl) 5 0

/-- Partition record of a tablet metadata protobuf (PartitionPB). -/
structure PartitionPB where
  partitionKeyStart : String
  partitionKeyEnd : String
  deriving DecidableEq, Repr

/-- Model of SysTabletsEntryPB: the fields VisitTabletFromRow touches.
The optional fields model protobuf presence bits; reading an absent
deprecated key yields the empty default. -/
structure SysTabletsEntryPB where
  tableId : String
  partition : Option PartitionPB
  deprecatedStartKey : Option String
  deprecatedEndKey : Option String
  deriving DecidableEq, Repr

/-- Upgrade step of SysCatalogTable::VisitTabletFromRow: when the
decoded record has no partition record, populate it from the
deprecated start/end keys and clear those fields; otherwise the record
is handed off unchanged. -/
def upgradeTabletEntry (m : SysTabletsEntryPB) : SysTabletsEntryPB :=
  if m.partition.isSome then m
  else
    { m with partition := some ⟨m.deprecatedStartKey.getD "", m.deprecatedEndKey.getD ""⟩,
             deprecatedStartKey := none,
             deprecatedEndKey := none }

/-- One catalog row as extracted by the tablet visitor: the entry_id
column and the serialized metadata column. -/
structure CatalogRow where
  entryId : String
  metadata : String
  deriving DecidableEq, Repr

/-- Decoding portion of SysCatalogTable::VisitTabletFromRow: parse the
metadata column (parsing itself is an external protobuf routine,
passed as a function), fail with a corruption status tagging the
tablet id, else apply the upgrade step; the result is the record
handed to the visitor. -/
def decodeTabletRow (parse : String → Option SysTabletsEntryPB)
    (row : CatalogRow) : Except Status SysTabletsEntryPB :=
  match parse row.metadata with
  | none => .error (Status.corruption
      ("Unable to parse metadata field for tablet " ++ row.entryId))
  | some m => .ok (upgradeTabletEntry m)

/-- C7 counterexample: a record that already carries a partition record
alongside a deprecated start key is handed to the visitor with the
deprecated field still present, contradicting the claim that the
deprecated fields are absent for every record handed off. -/
theorem visitTablet_deprecated_field_survives :
    decodeTabletRow
        (fun _ => some ⟨"t1", some ⟨"", ""⟩, some "a", none⟩)
        ⟨"tablet-0001", "blob"⟩
      = .ok ⟨"t1", some ⟨"", ""⟩, some "a", none⟩
    ∧ (⟨"t1", some ⟨"", ""⟩, some "a", none⟩ : SysTabletsEntryPB).deprecatedStartKey
        ≠ none := by
  constructor
  · rfl
  · decide

/-- C7 amended: every successfully decoded record handed to the
visitor has a populated partition field; when the decoded record
lacked a partition record, its partition was populated from the
deprecated start/end keys and those fields were cleared, while a
record already carrying a partition record is handed off unchanged. -/
theorem visitTablet_partition_populated (parse : String → Option SysTabletsEntryPB)
    (row : CatalogRow) (r : SysTabletsEntryPB)
    (h : decodeTabletRow parse row = .ok r) :
    r.partition.isSome = true
    ∧ (∀ m, parse row.metadata = some m → m.partition = none →
        r = { m with partition := some ⟨m.deprecatedStartKey.getD "",
                                       m.deprecatedEndKey.getD ""⟩,
                     deprecatedStartKey := none, deprecatedEndKey := none })
    ∧ (∀ m, parse row.metadata = some m → m.partition.isSome = true → r = m) := by
  unfold decodeTabletRow at h
  refine ⟨?_, ?_, ?_⟩
  · cases hp : parse row.metadata with
    | none => rw [hp] at h; cases h
    | some m =>
        rw [hp] at h
        cases h
        unfold upgradeTabletEntry
        by_cases hps : m.partition.isSome <;> simp [hps]
  · intro m hp hnone
    rw [hp] at h
    cases h
    simp [upgradeTabletEntry, hnone]
  · intro m hp hsome
    rw [hp] at h
    cases h
    simp [upgradeTabletEntry, hsome]

/-- Witness for C7 amended: a legacy record decoded at a concrete row
gets its partition populated and its deprecated fields cleared. -/
theorem visitTablet_partition_populated_witness :
    (upgradeTabletEntry ⟨"t1", none, some "ks", some "ke"⟩).partition.isSome = true
    ∧ upgradeTabletEntry ⟨"t1", none, some "ks", some "ke"⟩
        = ⟨"t1", some ⟨"ks", "ke"⟩, none, none⟩ := by
  have h := visitTablet_partition_populated
    (fun _ => some ⟨"t1", none, some "ks", some "ke"⟩) ⟨"row", "blob"⟩
    (upgradeTabletEntry ⟨"t1", none, some "ks", some "ke"⟩) rfl
  exact ⟨h.1, h.2.1 _ rfl rfl⟩

/-- Tablet peer handle state for the shutdown model. -/
structure TabletPeerState where
  isShutDown : Bool
  deriving DecidableEq, Repr

/-- Apply thread-pool state for the shutdown model. -/
structure ThreadPoolState where
  isShutDown : Bool
  deriving DecidableEq, Repr

/-- Handles owned by a SysCatalogTable that Shutdown touches: the
tablet peer pointer (null before a successful SetupTablet) and the
apply pool built in the constructor. -/
structure LifecycleState where
  tabletPeer : Option TabletPeerState
  applyPool : ThreadPoolState
  deriving DecidableEq, Repr

/-- SysCatalogTable::Shutdown: shut the tablet peer down when the
handle is non-null, then always shut the apply pool down.  The source
returns void, so the embedding is a total function on the lifecycle
state: no failure is possible. -/
def Shutdown (st : LifecycleState) : LifecycleState :=
  let st1 := match st.tabletPeer with
             | some _ => { st with tabletPeer := some ⟨true⟩ }
             | none => st
  { st1 with applyPool := ⟨true⟩ }

/-- C9: Shutdown is safe with a null tablet peer: the peer shutdown is
skipped, the apply pool is still shut down, and being a total function
the call never fails; with a live peer both are shut down. -/
theorem shutdown_safe_without_tablet_peer (st : LifecycleState) :
    (Shutdown st).applyPool.isShutDown = true
    ∧ (st.tabletPeer = none →
        Shutdown st = { tabletPeer := none, applyPool := ⟨true⟩ })
    ∧ (∀ p, st.tabletPeer = some p →
        Shutdown st = { tabletPeer := some ⟨true⟩, applyPool := ⟨true⟩ }) := by
  refine ⟨?_, ?_, ?_⟩
  · cases h : st.tabletPeer <;> simp [Shutdown, h]
  · intro h
    simp [Shutdown, h]
  · intro p h
    simp [Shutdown, h]

/-- Witness for C9: shutdown of a catalog whose tablet peer was never
set up. -/
theorem shutdown_safe_without_tablet_peer_witness :
    Shutdown ⟨none, ⟨false⟩⟩ = ⟨none, ⟨true⟩⟩ :=
  (shutdown_safe_without_tablet_peer ⟨none, ⟨false⟩⟩).2.1 rfl

/-- Network address as held by MasterOptions (kudu::HostPort). -/
structure HostPort where
  host : String
  port : Nat
  deriving DecidableEq, Repr

/-- HostPort::ToString renders host:port. -/
def HostPort.toStr (hp : HostPort) : String :=
  hp.host ++ ":" ++ toString hp.port

/-- Wire form of a host and port (HostPortPB). -/
structure HostPortPB where
  host : String
  port : Nat
  deriving DecidableEq, Repr

/-- Raft peer member types (RaftPeerPB::MemberType). -/
inductive MemberType where
  | voter
  | nonVoter
  deriving DecidableEq, Repr

/-- Model of consensus::RaftPeerPB: the fields the catalog code reads
and writes. -/
structure RaftPeerPB where
  permanentUuid : Option String
  memberType : Option MemberType
  lastKnownAddr : Option HostPortPB
  deriving DecidableEq, Repr

/-- Sentinel opid index of a configuration that has not been adopted
through the log (consensus::kInvalidOpIdIndex). -/
def kInvalidOpIdIndex : Int := -1

/-- Model of consensus::RaftConfigPB. -/
structure RaftConfigPB where
  obsoleteLocal : Option Bool
  opidIndex : Option Int
  peers : List RaftPeerPB
  deriving DecidableEq, Repr

/-- Model of MasterOptions: the configured master addresses and the
distributed-mode predicate. -/
structure MasterOptions where
  masterAddresses : List HostPort
  isDistributed : Bool
  deriving DecidableEq, Repr

/-- External collaborators of CreateDistributedConfig: the HostPort
conversion, the UUID discovery RPC
(consensus::SetPermanentUuidForRemotePeer) and the structural
verification (consensus::VerifyRaftConfig).  Each is modelled in the
C++ out-parameter style: a Status the caller checks with
RETURN_NOT_OK, plus the produced value. -/
structure ConfigEnv where
  hostPortToPB : HostPort → Status × HostPortPB
  setPermanentUuid : RaftPeerPB → Status × RaftPeerPB
  verifyRaftConfig : RaftConfigPB → Status

/-- First loop of CreateDistributedConfig: one voter peer per
configured master address, UUID left blank; a conversion failure
aborts the loop through RETURN_NOT_OK. -/
def buildConfigPeers (env : ConfigEnv) : List HostPort → Except Status (List RaftPeerPB)
  | [] => .ok []
  | hp :: rest =>
      let spb := env.hostPortToPB hp
      if spb.1.code ≠ StatusCode.ok then .error spb.1
      else
        match buildConfigPeers env rest with
        | .error e => .error e
        | .ok peers => .ok (⟨none, some .voter, some spb.2⟩ :: peers)

/-- Second loop of CreateDistributedConfig: keep peers that already
have a permanent UUID, resolve the others by RPC; a resolution failure
aborts the loop through RETURN_NOT_OK_PREPEND with the peer named in
the context. -/
def resolveConfigPeers (env : ConfigEnv) : List RaftPeerPB → Except Status (List RaftPeerPB)
  | [] => .ok []
  | peer :: rest =>
      match
        (if peer.permanentUuid.isSome then Except.ok peer
         else
           let sp := env.setPermanentUuid peer
           if sp.1.code ≠ StatusCode.ok then
             Except.error (Status.prepend "Unable to resolve UUID for peer" sp.1)
           else Except.ok sp.2) with
      | .error e => .error e
      | .ok p2 =>
          match resolveConfigPeers env rest with
          | .error e => .error e
          | .ok peers => .ok (p2 :: peers)

theorem buildConfigPeers_error_not_ok (env : ConfigEnv) (l : List HostPort)
    (e : Status) (h : buildConfigPeers env l = .error e) :
    e.code ≠ StatusCode.ok := by
  induction l with
  | nil => cases h
  | cons hp rest ih =>
      simp only [buildConfigPeers] at h
      by_cases hs : (env.hostPortToPB hp).1.code = StatusCode.ok
      · rw [if_neg (by simpa using hs)] at h
        revert h
        cases hb : buildConfigPeers env rest with
        | error e2 =>
            intro h
            cases h
            exact ih hb
        | ok peers => intro h; cases h
      · rw [if_pos (by simpa using hs)] at h
        cases h
        exact hs

theorem resolveConfigPeers_error_not_ok (env : ConfigEnv) (l : List RaftPeerPB)
    (e : Status) (h : resolveConfigPeers env l = .error e) :
    e.code ≠ StatusCode.ok := by
  induction l with
  | nil => cases h
  | cons peer rest ih =>
      simp only [resolveConfigPeers] at h
      by_cases hu : peer.permanentUuid.isSome
      · rw [if_pos hu] at h
        revert h
        cases hr : resolveConfigPeers env rest with
        | error e2 =>
            intro h
            cases h
            exact ih hr
        | ok peers => intro h; cases h
      · rw [if_neg hu] at h
        by_cases hs : (env.setPermanentUuid peer).1.code = StatusCode.ok
        · rw [if_neg (by simpa using hs)] at h
          revert h
          cases hr : resolveConfigPeers env rest with
          | error e2 =>
              intro h
              cases h
              exact ih hr
          | ok peers => intro h; cases h
        · rw [if_pos (by simpa using hs)] at h
          cases h
          simpa [Status.prepend, hs] using hs

/-- SysCatalogTable::CreateDistributedConfig: build the blank-UUID
voter config from the configured addresses, resolve every missing
UUID by RPC, verify the resolved configuration, and only then write it
to the output parameter; every failure path returns before the final
assignment, so the output parameter keeps its previous value. -/
def CreateDistributedConfig (env : ConfigEnv) (options : MasterOptions)
    (committedConfig : RaftConfigPB) : Status × RaftConfigPB :=
  match buildConfigPeers env options.masterAddresses with
  | .error e => (e, committedConfig)
  | .ok peers =>
      match resolveConfigPeers env peers with
      | .error e => (e, committedConfig)
      | .ok resolvedPeers =>
          let resolvedConfig : RaftConfigPB :=
            ⟨some false, some kInvalidOpIdIndex, resolvedPeers⟩
          let v := env.verifyRaftConfig resolvedConfig
          if v.code ≠ StatusCode.ok then (v, committedConfig)
          else (Status.OK, resolvedConfig)

/-- C10: CreateDistributedConfig writes its output parameter only
after address conversion, UUID resolution of every peer and structural
verification have all succeeded; on every failure path it returns a
non-OK status and leaves the output parameter unchanged. -/
theorem createDistributedConfig_output_discipline (env : ConfigEnv)
    (options : MasterOptions) (c0 : RaftConfigPB) :
    ((CreateDistributedConfig env options c0).1.code ≠ StatusCode.ok →
      (CreateDistributedConfig env options c0).2 = c0)
    ∧ ((CreateDistributedConfig env options c0).1.code = StatusCode.ok →
      ∃ peers resolvedPeers,
        buildConfigPeers env options.masterAddresses = .ok peers
        ∧ resolveConfigPeers env peers = .ok resolvedPeers
        ∧ (env.verifyRaftConfig
            ⟨some false, some kInvalidOpIdIndex, resolvedPeers⟩).code = StatusCode.ok
        ∧ (CreateDistributedConfig env options c0).2
            = ⟨some false, some kInvalidOpIdIndex, resolvedPeers⟩) := by
  cases hb : buildConfigPeers env options.masterAddresses with
  | error e =>
      have he := buildConfigPeers_error_not_ok env _ e hb
      refine ⟨fun _ => by simp [CreateDistributedConfig, hb], fun hok => ?_⟩
      exact absurd (by simpa [CreateDistributedConfig, hb] using hok) he
  | ok peers =>
      cases hr : resolveConfigPeers env peers with
      | error e =>
          have he := resolveConfigPeers_error_not_ok env _ e hr
          refine ⟨fun _ => by simp [CreateDistributedConfig, hb, hr], fun hok => ?_⟩
          exact absurd (by simpa [CreateDistributedConfig, hb, hr] using hok) he
      | ok resolvedPeers =>
          by_cases hv : (env.verifyRaftConfig
              ⟨some false, some kInvalidOpIdIndex, resolvedPeers⟩).code = StatusCode.ok
          · refine ⟨fun hne => absurd ?_ hne, fun _ =>
              ⟨peers, resolvedPeers, rfl, hr, hv, ?_⟩⟩
            · simp [CreateDistributedConfig, hb, hr, hv, Status.OK]
            · simp [CreateDistributedConfig, hb, hr, hv]
          · refine ⟨fun _ => by simp [CreateDistributedConfig, hb, hr, hv], fun hok => ?_⟩
            exact absurd (by simpa [CreateDistributedConfig, hb, hr, hv] using hok) hv

/-- Environment whose address conversion fails, for the C10 witness. -/
def cfgEnvFail : ConfigEnv :=
  ⟨fun _ => (⟨.runtimeError, "conv"⟩, ⟨"", 0⟩),
   fun p => (Status.OK, p),
   fun _ => Status.OK⟩

/-- Environment where every step succeeds, for the C10 witness. -/
def cfgEnvOk : ConfigEnv :=
  ⟨fun hp => (Status.OK, ⟨hp.host, hp.port⟩),
   fun p => (Status.OK, { p with permanentUuid := some "uuid-1" }),
   fun _ => Status.OK⟩

/-- Witness for C10: a failing conversion leaves the output untouched,
and a fully successful run produces the verified configuration. -/
theorem createDistributedConfig_output_discipline_witness :
    (CreateDistributedConfig cfgEnvFail ⟨[⟨"m1", 7051⟩], true⟩ ⟨some true, none, []⟩).2
      = ⟨some true, none, []⟩
    ∧ ∃ peers resolvedPeers,
        buildConfigPeers cfgEnvOk [⟨"m1", 7051⟩] = .ok peers
        ∧ resolveConfigPeers cfgEnvOk peers = .ok resolvedPeers
        ∧ (cfgEnvOk.verifyRaftConfig
            ⟨some false, some kInvalidOpIdIndex, resolvedPeers⟩).code = StatusCode.ok
        ∧ (CreateDistributedConfig cfgEnvOk ⟨[⟨"m1", 7051⟩], true⟩
            ⟨some true, none, []⟩).2
            = ⟨some false, some kInvalidOpIdIndex, resolvedPeers⟩ := by
  constructor
  · exact (createDistributedConfig_output_discipline cfgEnvFail
      ⟨[⟨"m1", 7051⟩], true⟩ ⟨some true, none, []⟩).1 (by decide)
  · exact (createDistributedConfig_output_discipline cfgEnvOk
      ⟨[⟨"m1", 7051⟩], true⟩ ⟨some true, none, []⟩).2 (by decide)

/-- Lexicographic strict comparison of character lists, mirroring the
std::string less-than used by std::set of strings. -/
def listLt : List Char → List Char → Bool
  | [], [] => false
  | [], _ :: _ => true
  | _ :: _, [] => false
  | c :: cs, d :: ds =>
      if c < d then true
      else if d < c then false
      else listLt cs ds

/-- String comparison on the underlying character lists. -/
def strLt (a b : String) : Bool := listLt a.data b.data

/-- Strict-order proposition used for the sorted-set invariants. -/
def SLt (a b : String) : Prop := strLt a b = true

theorem listLt_irrefl (l : List Char) : listLt l l = false := by
  induction l with
  | nil => rfl
  | cons c cs ih => simp [listLt, ih]

theorem listLt_trans (a b c : List Char) (hab : listLt a b = true)
    (hbc : listLt b c = true) : listLt a c = true := by
  induction a generalizing b c with
  | nil =>
      cases b with
      | nil => cases hab
      | cons y ys =>
          cases c with
          | nil => cases hbc
          | cons z zs => rfl
  | cons x xs ih =>
      cases b with
      | nil => cases hab
      | cons y ys =>
          cases c with
          | nil => cases hbc
          | cons z zs =>
              simp only [listLt] at hab hbc ⊢
              by_cases hxy : x < y
              · by_cases hyz : y < z
                · simp [lt_trans hxy hyz]
                · by_cases hzy : z < y
                  · simp only [if_neg hyz, if_pos hzy] at hbc
                    cases hbc
                  · have : y = z := le_antisymm (not_lt.mp hzy) (not_lt.mp hyz)
                    subst this
                    simp [hxy]
              · by_cases hyx : y < x
                · simp only [if_neg hxy, if_pos hyx] at hab
                  cases hab
                · have hxyeq : x = y := le_antisymm (not_lt.mp hyx) (not_lt.mp hxy)
                  subst hxyeq
                  simp only [if_neg hxy, if_neg hxy] at hab
                  by_cases hyz : x < z
                  · simp [hyz]
                  · by_cases hzy : z < x
                    · simp only [if_neg hyz, if_pos hzy] at hbc
                      cases hbc
                    · simp only [if_neg hyz, if_neg hzy] at hbc ⊢
                      exact ih ys zs hab hbc

theorem listLt_antisymm (a b : List Char) (hab : listLt a b = false)
    (hba : listLt b a = false) : a = b := by
  induction a generalizing b with
  | nil =>
      cases b with
      | nil => rfl
      | cons y ys => cases hab
  | cons x xs ih =>
      cases b with
      | nil => cases hba
      | cons y ys =>
          simp only [listLt] at hab hba
          by_cases hxy : x < y
          · simp [hxy] at hab
          · by_cases hyx : y < x
            · simp [hyx] at hba
            · have hxyeq : x = y := le_antisymm (not_lt.mp hyx) (not_lt.mp hxy)
              subst hxyeq
              simp only [if_neg hxy, if_neg hxy] at hab hba
              rw [ih ys hab hba]

theorem strLt_irrefl (a : String) : strLt a a = false := listLt_irrefl a.data

theorem strLt_trans (a b c : String) (hab : strLt a b = true)
    (hbc : strLt b c = true) : strLt a c = true :=
  listLt_trans a.data b.data c.data hab hbc

theorem strLt_antisymm (a b : String) (hab : strLt a b = false)
    (hba : strLt b a = false) : a = b := by
  cases a with
  | mk da =>
      cases b with
      | mk db =>
          have := listLt_antisymm da db hab hba
          rw [this]

theorem SLt_ne (a b : String) (h : SLt a b) : a ≠ b := by
  intro he
  subst he
  rw [SLt, strLt_irrefl] at h
  cases h

/-- Insertion into a sorted duplicate-free list, modelling std::set
insertion of one string. -/
def setInsert (a : String) : List String → List String
  | [] => [a]
  | b :: bs =>
      if strLt a b then a :: b :: bs
      else if strLt b a then b :: setInsert a bs
      else b :: bs

/-- Result of inserting every element of a list into a std::set of
strings: a sorted duplicate-free list. -/
def toSortedSet : List String → List String
  | [] => []
  | a :: rest => setInsert a (toSortedSet rest)

theorem mem_setInsert (x a : String) (l : List String) :
    x ∈ setInsert a l ↔ x = a ∨ x ∈ l := by
  induction l with
  | nil => simp [setInsert]
  | cons b bs ih =>
      by_cases hab : strLt a b = true
      · simp [setInsert, hab]
      · by_cases hba : strLt b a = true
        · simp only [setInsert, if_neg hab, if_pos hba,
            List.mem_cons, ih]
          tauto
        · have : a = b := strLt_antisymm a b (by simpa using hab) (by simpa using hba)
          subst this
          simp only [setInsert, if_neg hab,
            if_neg hba, List.mem_cons]
          tauto

theorem pairwise_setInsert (a : String) (l : List String)
    (h : l.Pairwise SLt) : (setInsert a l).Pairwise SLt := by
  induction l with
  | nil => simp [setInsert, List.pairwise_cons]
  | cons b bs ih =>
      rw [List.pairwise_cons] at h
      obtain ⟨hb, hbs⟩ := h
      by_cases hab : strLt a b = true
      · rw [setInsert, if_pos hab, List.pairwise_cons]
        refine ⟨?_, List.pairwise_cons.mpr ⟨hb, hbs⟩⟩
        intro x hx
        rcases List.mem_cons.mp hx with hx | hx
        · subst hx; exact hab
        · exact strLt_trans a b x hab (hb x hx)
      · by_cases hba : strLt b a = true
        · rw [setInsert, if_neg hab, if_pos hba, List.pairwise_cons]
          refine ⟨?_, ih hbs⟩
          intro x hx
          rcases (mem_setInsert x a bs).mp hx with hx | hx
          · subst hx; exact hba
          · exact hb x hx
        · have : a = b := strLt_antisymm a b (by simpa using hab) (by simpa using hba)
          subst this
          rw [setInsert, if_neg hab, if_neg hba]
          exact List.pairwise_cons.mpr ⟨hb, hbs⟩

theorem mem_toSortedSet (x : String) (l : List String) :
    x ∈ toSortedSet l ↔ x ∈ l := by
  induction l with
  | nil => simp [toSortedSet]
  | cons a rest ih => simp [toSortedSet, mem_setInsert, ih]

theorem pairwise_toSortedSet (l : List String) :
    (toSortedSet l).Pairwise SLt := by
  induction l with
  | nil => simp [toSortedSet]
  | cons a rest ih => exact pairwise_setInsert a _ ih

/-- Fuelled two-pointer merge mirroring std::set_symmetric_difference
on two sorted ranges: emit the strictly smaller head and advance that
side, drop both heads when equal, copy the unexhausted side at the
end.  The fuel only bounds the iteration count; the wrapper below
always passes enough. -/
def symmDiffMerge : Nat → List String → List String → List String
  | _, [], ys => ys
  | _, xs, [] => xs
  | 0, _ :: _, _ :: _ => []
  | fuel + 1, x :: xs, y :: ys =>
      if strLt x y then x :: symmDiffMerge fuel xs (y :: ys)
      else if strLt y x then y :: symmDiffMerge fuel (x :: xs) ys
      else symmDiffMerge fuel xs ys

/-- Symmetric difference of two sorted duplicate-free string lists, as
computed by std::set_symmetric_difference into a vector. -/
def symmDiff (xs ys : List String) : List String :=
  symmDiffMerge (xs.length + ys.length) xs ys

theorem notMem_of_forall_slt (x : String) (l : List String)
    (h : ∀ w ∈ l, SLt x w) : x ∉ l := by
  intro hx
  exact SLt_ne x x (h x hx) rfl

theorem mem_symmDiffMerge (fuel : Nat) :
    ∀ (xs ys : List String), xs.length + ys.length ≤ fuel →
    xs.Pairwise SLt → ys.Pairwise SLt →
    ∀ z, z ∈ symmDiffMerge fuel xs ys ↔
      ((z ∈ xs ∧ z ∉ ys) ∨ (z ∈ ys ∧ z ∉ xs)) := by
  induction fuel with
  | zero =>
      intro xs ys hlen hxs hys z
      cases xs with
      | nil => simp [symmDiffMerge]
      | cons x xs =>
          cases ys with
          | nil => simp [symmDiffMerge]
          | cons y ys => simp at hlen
  | succ fuel ih =>
      intro xs ys hlen hxs hys z
      cases xs with
      | nil => simp [symmDiffMerge]
      | cons x xs =>
          cases ys with
          | nil => simp [symmDiffMerge]
          | cons y ys =>
              rw [List.pairwise_cons] at hxs hys
              obtain ⟨hx1, hx2⟩ := hxs
              obtain ⟨hy1, hy2⟩ := hys
              simp only [List.length_cons] at hlen
              by_cases hxy : strLt x y = true
              · have hxniny : x ∉ y :: ys := by
                  apply notMem_of_forall_slt
                  intro w hw
                  rcases List.mem_cons.mp hw with hw | hw
                  · subst hw; exact hxy
                  · exact strLt_trans x y w hxy (hy1 w hw)
                have hxninxs : x ∉ xs := notMem_of_forall_slt _ _ hx1
                rw [symmDiffMerge, if_pos hxy]
                have hrec := ih xs (y :: ys) (by simp; omega) hx2
                  (List.pairwise_cons.mpr ⟨hy1, hy2⟩) z
                by_cases hz : z = x
                · have hzniny : z ∉ y :: ys := by rw [hz]; exact hxniny
                  have hznxs : z ∉ xs := by rw [hz]; exact hxninxs
                  simp only [List.mem_cons, not_or] at hrec hzniny hznxs ⊢
                  tauto
                · simp only [List.mem_cons, not_or] at hrec ⊢
                  tauto
              · by_cases hyx : strLt y x = true
                · have hyninx : y ∉ x :: xs := by
                    apply notMem_of_forall_slt
                    intro w hw
                    rcases List.mem_cons.mp hw with hw | hw
                    · subst hw; exact hyx
                    · exact strLt_trans y x w hyx (hx1 w hw)
                  have hyninys : y ∉ ys := notMem_of_forall_slt _ _ hy1
                  rw [symmDiffMerge, if_neg hxy, if_pos hyx]
                  have hrec := ih (x :: xs) ys (by simp; omega)
                    (List.pairwise_cons.mpr ⟨hx1, hx2⟩) hy2 z
                  by_cases hz : z = y
                  · have hzninx : z ∉ x :: xs := by rw [hz]; exact hyninx
                    have hznys : z ∉ ys := by rw [hz]; exact hyninys
                    simp only [List.mem_cons, not_or] at hrec hzninx hznys ⊢
                    tauto
                  · simp only [List.mem_cons, not_or] at hrec ⊢
                    tauto
                · have hxyeq : x = y :=
                    strLt_antisymm x y (by simpa using hxy) (by simpa using hyx)
                  subst hxyeq
                  rw [symmDiffMerge, if_neg hxy, if_neg hyx]
                  have hrec := ih xs ys (by omega) hx2 hy2 z
                  by_cases hz : z = x
                  · have h1 : z ∉ xs := by rw [hz]; exact notMem_of_forall_slt _ _ hx1
                    have h2 : z ∉ ys := by rw [hz]; exact notMem_of_forall_slt _ _ hy1
                    simp only [List.mem_cons, not_or] at hrec h1 h2 ⊢
                    tauto
                  · simp only [List.mem_cons, not_or] at hrec ⊢
                    tauto

theorem mem_symmDiff (xs ys : List String) (hxs : xs.Pairwise SLt)
    (hys : ys.Pairwise SLt) (z : String) :
    z ∈ symmDiff xs ys ↔ ((z ∈ xs ∧ z ∉ ys) ∨ (z ∈ ys ∧ z ∉ xs)) :=
  mem_symmDiffMerge (xs.length + ys.length) xs ys (le_refl _) hxs hys z

/-- JoinStrings with a single-space separator, on character lists. -/
def joinChars : List String → List Char
  | [] => []
  | [s] => s.data
  | s :: rest => s.data ++ (' ' :: joinChars rest)

/-- Message of the invalid-argument status returned by Load on a
divergent master list (Substitute of the joined symmetric
difference). -/
def mkDiffMsg (diff : List String) : String :=
  ⟨("on-disk and provided master lists are different: ").data ++ joinChars diff⟩

/-- Containment of one character list inside another as a contiguous
segment. -/
def segmentOf (a b : List Char) : Prop := ∃ pre post, b = pre ++ a ++ post

theorem segment_joinChars (a : String) (l : List String) (h : a ∈ l) :
    segmentOf a.data (joinChars l) := by
  induction l with
  | nil => cases h
  | cons s rest ih =>
      rcases List.mem_cons.mp h with h | h
      · subst h
        cases rest with
        | nil => exact ⟨[], [], by simp [joinChars]⟩
        | cons r rs => exact ⟨[], ' ' :: joinChars (r :: rs), by simp [joinChars]⟩
      · obtain ⟨pre, post, hpre⟩ := ih h
        cases rest with
        | nil => cases h
        | cons r rs =>
            exact ⟨s.data ++ (' ' :: pre), post, by simp [joinChars, hpre]⟩

theorem segment_mkDiffMsg (a : String) (diff : List String) (h : a ∈ diff) :
    segmentOf a.data (mkDiffMsg diff).data := by
  obtain ⟨pre, post, hpre⟩ := segment_joinChars a diff h
  exact ⟨("on-disk and provided master lists are different: ").data ++ pre, post,
    by simp [mkDiffMsg, hpre]⟩

/-- Model of tablet::TabletMetadata as read by Load. -/
structure TabletMetadata where
  tabletId : String
  schema : Schema
  deriving DecidableEq, Repr

/-- Model of consensus::ConsensusMetadata: the committed Raft
configuration it persists. -/
structure ConsensusMetadata where
  committedConfig : RaftConfigPB
  deriving DecidableEq, Repr

/-- Model of consensus::ConsensusStatePB as used by Load. -/
structure ConsensusStatePB where
  config : RaftConfigPB
  deriving DecidableEq, Repr

/-- ConsensusMetadata::ToConsensusStatePB(CONSENSUS_CONFIG_COMMITTED). -/
def ConsensusMetadata.toConsensusStatePB (cm : ConsensusMetadata) : ConsensusStatePB :=
  ⟨cm.committedConfig⟩

/-- External collaborators of Load, in the C++ out-parameter style:
TabletMetadata::Load, ConsensusMetadata::Load,
consensus::VerifyConsensusState, HostPortFromPB, and the SetupTablet
step that Load tail-calls. -/
structure LoadEnv where
  loadTabletMetadata : Status × TabletMetadata
  loadConsensusMetadata : Status × ConsensusMetadata
  verifyConsensusState : ConsensusStatePB → Status
  hostPortFromPB : HostPortPB → Status × HostPort
  setupTablet : TabletMetadata → Status

/-- Loop of Load that converts every persisted peer address through
HostPortFromPB, aborting through RETURN_NOT_OK on the first failure;
an absent last_known_addr field reads as the protobuf default. -/
def collectPeerAddrs (conv : HostPortPB → Status × HostPort) :
    List RaftPeerPB → Except Status (List String)
  | [] => .ok []
  | p :: ps =>
      let sh := conv (p.lastKnownAddr.getD ⟨"", 0⟩)
      if sh.1.code ≠ StatusCode.ok then .error sh.1
      else
        match collectPeerAddrs conv ps with
        | .error e => .error e
        | .ok rest => .ok (sh.2.toStr :: rest)

theorem collectPeerAddrs_error_not_ok (conv : HostPortPB → Status × HostPort)
    (l : List RaftPeerPB) (e : Status) (h : collectPeerAddrs conv l = .error e) :
    e.code ≠ StatusCode.ok := by
  induction l with
  | nil => cases h
  | cons p ps ih =>
      simp only [collectPeerAddrs] at h
      by_cases hs : (conv (p.lastKnownAddr.getD ⟨"", 0⟩)).1.code = StatusCode.ok
      · rw [if_neg (by simpa using hs)] at h
        revert h
        cases hc : collectPeerAddrs conv ps with
        | error e2 =>
            intro h
            cases h
            exact ih hc
        | ok rest => intro h; cases h
      · rw [if_pos (by simpa using hs)] at h
        cases h
        exact hs

/-- Distributed-mode verification block of Load: load the consensus
metadata, verify the committed consensus state, convert the on-disk
peer addresses, and compare the two address sets by their sorted
symmetric difference, failing with invalid-argument when it is
non-empty.  In the source these are early returns out of Load itself;
Load below forwards any non-OK result, which is the same control
flow. -/
def distributedCheck (env : LoadEnv) (opts : MasterOptions) : Status :=
  if opts.isDistributed then
    if env.loadConsensusMetadata.1.code ≠ StatusCode.ok then
      Status.prepend
        ("Unable to load consensus metadata for tablet "
          ++ env.loadTabletMetadata.2.tabletId)
        env.loadConsensusMetadata.1
    else if (env.verifyConsensusState
        env.loadConsensusMetadata.2.toConsensusStatePB).code ≠ StatusCode.ok then
      env.verifyConsensusState env.loadConsensusMetadata.2.toConsensusStatePB
    else
      match collectPeerAddrs env.hostPortFromPB
          env.loadConsensusMetadata.2.toConsensusStatePB.config.peers with
      | .error e => e
      | .ok addrs =>
          if symmDiff (toSortedSet (opts.masterAddresses.map HostPort.toStr))
              (toSortedSet addrs) ≠ [] then
            Status.invalidArgument (mkDiffMsg
              (symmDiff (toSortedSet (opts.masterAddresses.map HostPort.toStr))
                (toSortedSet addrs)))
          else Status.OK
  else Status.OK

/-- SysCatalogTable::Load: load the tablet metadata for the well-known
catalog tablet id, require the persisted schema to equal the canonical
one, run the distributed-mode consensus verification, then call
SetupTablet. -/
def Load (env : LoadEnv) (opts : MasterOptions) : Status :=
  if env.loadTabletMetadata.1.code ≠ StatusCode.ok then env.loadTabletMetadata.1
  else if env.loadTabletMetadata.2.schema ≠ BuildTableSchema then
    Status.corruption "Unexpected schema"
  else if (distributedCheck env opts).code ≠ StatusCode.ok then
    distributedCheck env opts
  else env.setupTablet env.loadTabletMetadata.2

/-- C2 amended: Load returns OK exactly when the tablet metadata
loads, the persisted schema equals the canonical schema, in
distributed mode the consensus metadata loads, the committed state
verifies, every persisted peer address converts and the two peer
address sets have an empty symmetric difference, and SetupTablet
succeeds. -/
theorem load_ok_iff (env : LoadEnv) (opts : MasterOptions) :
    (Load env opts).code = StatusCode.ok ↔
      (env.loadTabletMetadata.1.code = StatusCode.ok
       ∧ env.loadTabletMetadata.2.schema = BuildTableSchema
       ∧ (opts.isDistributed = true →
           env.loadConsensusMetadata.1.code = StatusCode.ok
           ∧ (env.verifyConsensusState
               env.loadConsensusMetadata.2.toConsensusStatePB).code = StatusCode.ok
           ∧ ∃ addrs,
               collectPeerAddrs env.hostPortFromPB
                 env.loadConsensusMetadata.2.toConsensusStatePB.config.peers
                 = .ok addrs
               ∧ symmDiff (toSortedSet (opts.masterAddresses.map HostPort.toStr))
                   (toSortedSet addrs) = [])
       ∧ (env.setupTablet env.loadTabletMetadata.2).code = StatusCode.ok) := by
  by_cases h1 : env.loadTabletMetadata.1.code = StatusCode.ok
  · by_cases h2 : env.loadTabletMetadata.2.schema = BuildTableSchema
    · cases hdist : opts.isDistributed with
      | false =>
          have hdc : distributedCheck env opts = Status.OK := by
            simp [distributedCheck, hdist]
          simp [Load, h1, h2, hdc, Status.OK, hdist]
      | true =>
          by_cases h3 : env.loadConsensusMetadata.1.code = StatusCode.ok
          · by_cases h4 : (env.verifyConsensusState
                env.loadConsensusMetadata.2.toConsensusStatePB).code = StatusCode.ok
            · cases h5 : collectPeerAddrs env.hostPortFromPB
                  env.loadConsensusMetadata.2.toConsensusStatePB.config.peers with
              | error e =>
                  have he := collectPeerAddrs_error_not_ok _ _ e h5
                  have hdc : distributedCheck env opts = e := by
                    simp [distributedCheck, hdist, h3, h4, h5]
                  simp [Load, h1, h2, hdc, he, hdist, h3, h4, h5]
              | ok addrs =>
                  by_cases h6 : symmDiff
                      (toSortedSet (opts.masterAddresses.map HostPort.toStr))
                      (toSortedSet addrs) = []
                  · have hdc : distributedCheck env opts = Status.OK := by
                      simp [distributedCheck, hdist, h3, h4, h5, h6]
                    simp [Load, h1, h2, hdc, Status.OK, hdist, h3, h4, h5, h6]
                  · have hdc : distributedCheck env opts
                        = Status.invalidArgument (mkDiffMsg
                            (symmDiff (toSortedSet
                                (opts.masterAddresses.map HostPort.toStr))
                              (toSortedSet addrs))) := by
                      simp [distributedCheck, hdist, h3, h4, h5, h6]
                    simp [Load, h1, h2, hdc, Status.invalidArgument, hdist, h3, h4,
                      h5, h6]
            · have hdc : distributedCheck env opts
                  = env.verifyConsensusState
                      env.loadConsensusMetadata.2.toConsensusStatePB := by
                simp [distributedCheck, hdist, h3, h4]
              simp [Load, h1, h2, hdc, h4, hdist, h3]
          · have hdc : distributedCheck env opts
                = Status.prepend
                    ("Unable to load consensus metadata for tablet "
                      ++ env.loadTabletMetadata.2.tabletId)
                    env.loadConsensusMetadata.1 := by
              simp [distributedCheck, hdist, h3]
            have hcode : (distributedCheck env opts).code
                = env.loadConsensusMetadata.1.code := by
              rw [hdc, Status.prepend, if_neg h3]
            simp [Load, h1, h2, hcode, h3, hdist]
    · simp [Load, h1, h2, Status.corruption]
  · simp [Load, h1]

/-- Environment for the C2 counterexample: the tablet metadata loads
with the canonical schema and the mode is non-distributed, so both
conditions of the claim hold, but SetupTablet fails, so Load does
not return OK. -/
def cexLoadEnv : LoadEnv :=
  { loadTabletMetadata := (Status.OK, ⟨kSysCatalogTabletId, BuildTableSchema⟩),
    loadConsensusMetadata := (Status.OK, ⟨⟨none, none, []⟩⟩),
    verifyConsensusState := fun _ => Status.OK,
    hostPortFromPB := fun pb => (Status.OK, ⟨pb.host, pb.port⟩),
    setupTablet := fun _ => ⟨.runtimeError, "Failed to Init() TabletPeer"⟩ }

/-- Options for the C2 counterexample: non-distributed, so the peer
address condition of the claim is vacuously satisfied. -/
def cexLoadOpts : MasterOptions := ⟨[], false⟩

/-- C2 counterexample: the persisted schema equals the canonical
schema and the mode is non-distributed (so the peer-set condition
holds vacuously), yet Load does not return OK, because SetupTablet
fails; the two conditions of the claim are therefore not sufficient. -/
theorem load_not_ok_despite_schema_and_peer_match :
    cexLoadEnv.loadTabletMetadata.2.schema = BuildTableSchema
    ∧ cexLoadOpts.isDistributed = false
    ∧ (Load cexLoadEnv cexLoadOpts).code ≠ StatusCode.ok := by
  refine ⟨rfl, rfl, ?_⟩
  decide

/-- Environment for the C2 and C3 witnesses: every collaborator
succeeds and the persisted peers are m1, m2 and m3 on port 7051. -/
def wLoadEnv : LoadEnv :=
  { loadTabletMetadata := (Status.OK, ⟨kSysCatalogTabletId, BuildTableSchema⟩),
    loadConsensusMetadata :=
      (Status.OK, ⟨⟨some false, some 1,
        [⟨some "u1", some .voter, some ⟨"m1", 7051⟩⟩,
         ⟨some "u2", some .voter, some ⟨"m2", 7051⟩⟩,
         ⟨some "u3", some .voter, some ⟨"m3", 7051⟩⟩]⟩⟩),
    verifyConsensusState := fun _ => Status.OK,
    hostPortFromPB := fun pb => (Status.OK, ⟨pb.host, pb.port⟩),
    setupTablet := fun _ => Status.OK }

/-- Witness for C2 amended: a distributed restart with matching
configured and persisted peer sets loads successfully. -/
theorem load_ok_iff_witness :
    (Load wLoadEnv ⟨[⟨"m1", 7051⟩, ⟨"m2", 7051⟩, ⟨"m3", 7051⟩], true⟩).code
      = StatusCode.ok := by
  refine (load_ok_iff wLoadEnv _).mpr ⟨rfl, rfl, fun _ => ⟨rfl, rfl,
    ⟨["m1:7051", "m2:7051", "m3:7051"], rfl, by decide⟩⟩, rfl⟩

/-- C3: in distributed mode, once the earlier Load steps have
succeeded, a non-empty symmetric difference between the configured and
the persisted peer address sets makes Load fail with an
invalid-argument status; membership in the computed difference is
exactly exclusive membership in one of the two address lists, and
every address of the difference occurs verbatim in the status
message. -/
theorem load_divergent_peers_invalid_argument (env : LoadEnv)
    (opts : MasterOptions) (addrs : List String)
    (hdist : opts.isDistributed = true)
    (h1 : env.loadTabletMetadata.1.code = StatusCode.ok)
    (h2 : env.loadTabletMetadata.2.schema = BuildTableSchema)
    (h3 : env.loadConsensusMetadata.1.code = StatusCode.ok)
    (h4 : (env.verifyConsensusState
        env.loadConsensusMetadata.2.toConsensusStatePB).code = StatusCode.ok)
    (h5 : collectPeerAddrs env.hostPortFromPB
        env.loadConsensusMetadata.2.toConsensusStatePB.config.peers = .ok addrs)
    (h6 : symmDiff (toSortedSet (opts.masterAddresses.map HostPort.toStr))
        (toSortedSet addrs) ≠ []) :
    Load env opts
      = Status.invalidArgument (mkDiffMsg
          (symmDiff (toSortedSet (opts.masterAddresses.map HostPort.toStr))
            (toSortedSet addrs)))
    ∧ (∀ a, a ∈ symmDiff (toSortedSet (opts.masterAddresses.map HostPort.toStr))
          (toSortedSet addrs)
        ↔ ((a ∈ opts.masterAddresses.map HostPort.toStr ∧ a ∉ addrs)
           ∨ (a ∈ addrs ∧ a ∉ opts.masterAddresses.map HostPort.toStr)))
    ∧ (∀ a ∈ symmDiff (toSortedSet (opts.masterAddresses.map HostPort.toStr))
          (toSortedSet addrs),
        segmentOf a.data
          (mkDiffMsg (symmDiff
            (toSortedSet (opts.masterAddresses.map HostPort.toStr))
            (toSortedSet addrs))).data) := by
  refine ⟨?_, ?_, ?_⟩
  · have hdc : distributedCheck env opts
        = Status.invalidArgument (mkDiffMsg
            (symmDiff (toSortedSet (opts.masterAddresses.map HostPort.toStr))
              (toSortedSet addrs))) := by
      simp [distributedCheck, hdist, h3, h4, h5, h6]
    rw [Load, if_neg (by simp [h1]), if_neg (by simp [h2]), if_pos (by
      rw [hdc]; simp [Status.invalidArgument]), hdc]
  · intro a
    rw [mem_symmDiff _ _ (pairwise_toSortedSet _) (pairwise_toSortedSet _),
      mem_toSortedSet, mem_toSortedSet]
  · intro a ha
    exact segment_mkDiffMsg a _ ha

/-- Witness for C3: the spec scenario of a restart where m3 was
replaced by m4; Load fails with invalid-argument and the message
carries both m3:7051 and m4:7051. -/
theorem load_divergent_peers_invalid_argument_witness :
    Load wLoadEnv ⟨[⟨"m1", 7051⟩, ⟨"m2", 7051⟩, ⟨"m4", 7051⟩], true⟩
      = Status.invalidArgument (mkDiffMsg ["m3:7051", "m4:7051"])
    ∧ segmentOf ("m3:7051").data (mkDiffMsg ["m3:7051", "m4:7051"]).data
    ∧ segmentOf ("m4:7051").data (mkDiffMsg ["m3:7051", "m4:7051"]).data := by
  have h := load_divergent_peers_invalid_argument wLoadEnv
    ⟨[⟨"m1", 7051⟩, ⟨"m2", 7051⟩, ⟨"m4", 7051⟩], true⟩
    ["m1:7051", "m2:7051", "m3:7051"] rfl rfl rfl rfl rfl rfl (by decide)
  have hsd : symmDiff (toSortedSet
        (([⟨"m1", 7051⟩, ⟨"m2", 7051⟩, ⟨"m4", 7051⟩] : List HostPort).map
          HostPort.toStr))
      (toSortedSet ["m1:7051", "m2:7051", "m3:7051"]) = ["m3:7051", "m4:7051"] := by
    decide
  refine ⟨?_, ?_, ?_⟩
  · have h1 := h.1
    rw [hsd] at h1
    exact h1
  · have h3 := h.2.2 "m3:7051" (by decide)
    rw [hsd] at h3
    exact h3
  · have h4 := h.2.2 "m4:7051" (by decide)
    rw [hsd] at h4
    exact h4

end SysCatalog
